import Mathlib

/-!
Verification development for the MCP music-service core
(`src/managers/MusicManager.js`, `src/servers/WebSocketServer.js`,
`src/servers/ApiServer.js`).

The JavaScript source is shallowly embedded: every definition below is a
direct translation of the corresponding JS function.  Environment-supplied
values (`nanoid()` results, `new Date().toISOString()` timestamps, filesystem
`mtime`s, parsed tag metadata) are modelled as inputs carried on the scanned
file records, since the JS functions obtain them from the ambient environment.
JS truthiness checks (`x || d`, `if (x)`) are translated explicitly: `0`,
`""`, `null`/`undefined` are falsy; note that an empty array is truthy in JS.
-/

namespace MCPMusic

/-- `q` occurs as a contiguous run inside `s` (lists of characters). -/
def subListOf (q : List Char) : List Char → Bool
  | [] => q.isEmpty
  | c :: rest => q.isPrefixOf (c :: rest) || subListOf q rest

/-- Substring test: JS `String.prototype.includes`. -/
def strIncludes (s q : String) : Bool :=
  subListOf q.toList s.toList

/-- ASCII case folding of one character — the alphabet the embedded strings
draw from, matching JS `toLowerCase` there. -/
def lowerChar (c : Char) : Char :=
  if 65 ≤ c.toNat ∧ c.toNat ≤ 90 then Char.ofNat (c.toNat + 32) else c

/-- JS `String.prototype.toLowerCase` (ASCII). -/
def lowerStr (s : String) : String :=
  String.mk (s.toList.map lowerChar)

/-- JS `String.prototype.trim`: strip leading and trailing whitespace. -/
def trimStr (s : String) : String :=
  String.mk (((s.toList.dropWhile Char.isWhitespace).reverse.dropWhile
    Char.isWhitespace).reverse)

/-- Split a character list at every occurrence of `c`
(JS `String.prototype.split` with a one-character separator). -/
def splitOnChar (c : Char) : List Char → List (List Char)
  | [] => [[]]
  | x :: xs =>
      let r := splitOnChar c xs
      if x = c then [] :: r
      else
        match r with
        | h :: t => (x :: h) :: t
        | [] => [[x]]

/-- Last path component: JS `path.basename(p)` (POSIX, no trailing slash). -/
def basenameOf (p : String) : String :=
  ((splitOnChar '/' p.toList).map String.mk).getLastD ""

/-- JS `path.extname(p)`: extension of the basename including the dot;
`""` when the basename has no dot or its only dot is the leading one. -/
def extname (p : String) : String :=
  let b := (basenameOf p).toList
  let suf := (b.reverse.takeWhile (fun c => c ≠ '.')).reverse
  if suf.length = b.length then ""
  else if suf.length + 1 = b.length then ""
  else String.mk ('.' :: suf)

/-- JS `path.basename(p, ext)`: basename with the suffix `ext` removed,
unless the whole basename equals `ext`. -/
def basenameNoExt (p ext : String) : String :=
  let b := basenameOf p
  if ext ≠ "" ∧ b ≠ ext ∧ List.isSuffixOf ext.toList b.toList then
    String.mk (b.toList.take (b.toList.length - ext.toList.length))
  else b

-- ### Configuration (`configLoader.js` defaults, fields used by the core)

/-- The configuration slice the manager reads: `config.music.supportedFormats`
and `config.api.maxResults` (`maxResults = 0` models a falsy/absent cap). -/
structure Config where
  supportedFormats : List String := ["mp3", "wav", "flac", "m4a", "aac", "ogg"]
  maxResults : Nat := 100
  deriving Repr, DecidableEq

-- ### Catalog entries (`_extractMusicInfo` output shape)

/-- The tag/stream metadata `music-metadata`'s `parseFile` yields on success
(`metadata.common` / `metadata.format` fields the try block reads).
`Option` marks tag fields that may be `undefined`/`null` in JS.  Carried
for fidelity to the source's read of it; the value never escapes the try
block (see `extractMusicInfo`). -/
structure FileMeta where
  title : Option String := none
  artists : Option (List String) := none
  artist : Option String := none
  album : Option String := none
  genre : Option (List String) := none
  duration : Option ℚ := none
  date : Option String := none
  year : Option String := none
  trackNo : Option Nat := none
  diskNo : Option Nat := none
  picture : List String := []     -- `common.picture`, kept as its mime types
  bitrate : Option Nat := none
  sampleRate : Option Nat := none
  channels : Option Nat := none
  deriving Repr, DecidableEq

/-- One file handed to `_extractMusicInfo`, together with the
environment-supplied values the JS code draws inside the call:
`meta = none` models `parseFile` throwing (unparsable header); `ident` is
the `nanoid()` and `now` the `new Date().toISOString()` of the catch run
(whose values the returned entry carries); `mtime` is the filesystem
modification time the try block reads — it never reaches the catalog
(see `extractMusicInfo`). -/
structure ScanFile where
  name : String
  meta : Option FileMeta := none
  ident : String := ""
  now : String := ""
  mtime : String := ""
  deriving Repr, DecidableEq

/-- A catalog entry as built by `_extractMusicInfo`.  Fields that the
fallback (catch) branch of the source omits are `Option`-typed: `none`
models the JS property being absent (`undefined`). -/
structure MusicInfo where
  id : String
  title : String
  artist : String
  album : String
  genre : List String
  duration : ℚ
  year : String
  trackNumber : Option Nat
  discNumber : Option Nat
  path : String
  filename : String
  format : String
  coverArt : Bool
  bitrate : Option Nat
  sampleRate : Option Nat
  channels : Option Nat
  addedAt : String
  modifiedAt : Option String
  coverMimeType : Option String
  deriving Repr, DecidableEq

/-- `_extractMusicInfo(filePath)`.  The try block (MusicManager.js lines
91-131) parses the file and attempts to build the full entry object, but
evaluating its `modifiedAt` property —
`new Date(await fs.stat(filePath)).toISOString()` (line 122) — throws
`RangeError` for every file: `new Date` applied to the `fs.Stats` object
coerces it to the string `"[object Object]"`, an Invalid Date, whose
`toISOString` throws.  So for every file, parsable or not, control reaches
the catch (lines 132-150) and the reduced fallback object is returned; the
tag metadata read by the try block (`f.meta`, when `parseFile` succeeds)
never escapes it.  The `nanoid()` and `new Date().toISOString()` values
the returned object carries are those of the catch run, modelled by
`f.ident` / `f.now`; omitted properties are `none`. -/
def extractMusicInfo (filePath : String) (f : ScanFile) : MusicInfo :=
  { id := f.ident
    title := basenameNoExt filePath (extname filePath)
    artist := "未知艺术家"
    album := "未知专辑"
    genre := ["未知流派"]
    duration := 0
    year := "未知年份"
    trackNumber := none
    discNumber := none
    path := filePath
    filename := basenameOf filePath
    format := (extname filePath).drop 1
    coverArt := false
    bitrate := none
    sampleRate := none
    channels := none
    addedAt := f.now
    modifiedAt := none
    coverMimeType := none }

-- ### Directory scan (`_scanDirectory`, `_isSupportedFormat`, `scanLibrary`)

/-- A directory tree as `fs.readdir(..., { withFileTypes: true })` exposes
it: files carry their scan-time environment data, directories their
listing. -/
inductive FsEntry where
  | file (f : ScanFile)
  | dir (name : String) (entries : List FsEntry)

/-- `_isSupportedFormat(filename)`:
`path.extname(filename).toLowerCase().substring(1)` is looked up in
`config.music.supportedFormats`. -/
def isSupportedFormat (cfg : Config) (filename : String) : Bool :=
  cfg.supportedFormats.contains ((lowerStr (extname filename)).drop 1)

/-- `_scanDirectory(dirPath)`: depth-first walk in listing order; a file is
collected iff its name passes `_isSupportedFormat`; directories are
recursed into with `path.join(dirPath, item.name)`. -/
def scanDirectory (cfg : Config) (dirPath : String) : List FsEntry → List (String × ScanFile)
  | [] => []
  | FsEntry.file f :: rest =>
      (if isSupportedFormat cfg f.name then [(dirPath ++ "/" ++ f.name, f)] else [])
        ++ scanDirectory cfg dirPath rest
  | FsEntry.dir name sub :: rest =>
      scanDirectory cfg (dirPath ++ "/" ++ name) sub ++ scanDirectory cfg dirPath rest

/-- Number of files in the tree whose extension passes
`_isSupportedFormat` — the `N` of a scan. -/
def supportedCount (cfg : Config) : List FsEntry → Nat
  | [] => 0
  | FsEntry.file f :: rest =>
      (if isSupportedFormat cfg f.name then 1 else 0) + supportedCount cfg rest
  | FsEntry.dir _ sub :: rest => supportedCount cfg sub + supportedCount cfg rest

/-- The result of a completed `scanLibrary()` run: every collected file is
passed through `_extractMusicInfo` and pushed. (`_extractMusicInfo` is total
in the model — its own catch produces the fallback entry — so the outer
per-file catch never skips a file.) -/
def scanLibrary (cfg : Config) (root : String) (tree : List FsEntry) : List MusicInfo :=
  (scanDirectory cfg root tree).map (fun pf => extractMusicInfo pf.1 pf.2)

/-- The contents of the mutable `this.musicLibrary` observable at the await
point after `k` files of the scan have been processed: `scanLibrary()` first
assigns `this.musicLibrary = []` (so `k = 0` is the state any concurrent
reader sees from scan start until the first push) and then appends one entry
per file across `await` boundaries. -/
def midScanLibrary (cfg : Config) (root : String) (tree : List FsEntry) (k : Nat) :
    List MusicInfo :=
  ((scanDirectory cfg root tree).take k).map (fun pf => extractMusicInfo pf.1 pf.2)

/-- One observable mutation of the shared `this.musicLibrary` array during
`scanLibrary()`: the initial `this.musicLibrary = []` assignment, or one
`push` of an extracted entry.  Each happens between `await` points, so
concurrent code observes the array between any two of them. -/
inductive ScanEv where
  | clear
  | push (m : MusicInfo)
  deriving Repr, DecidableEq

/-- The mutation trace of one `scanLibrary()` run: the clear, then one push
per collected file, in scan order. -/
def scanEvents (cfg : Config) (root : String) (tree : List FsEntry) : List ScanEv :=
  ScanEv.clear :: (scanLibrary cfg root tree).map ScanEv.push

/-- Effect of one mutation on the shared library array. -/
def applyEv (lib : List MusicInfo) : ScanEv → List MusicInfo
  | ScanEv.clear => []
  | ScanEv.push m => lib ++ [m]

/-- The library contents after a sequence of mutations, starting from
`lib`. -/
def runEvents (lib : List MusicInfo) (evs : List ScanEv) : List MusicInfo :=
  evs.foldl applyEv lib

/-- `zs` is an interleaving of `xs` and `ys`, each list's order preserved —
the possible schedules of two concurrent `scanLibrary()` runs on the
single-threaded event loop (`scanLibrary` has no in-flight guard, so a
rescan triggered while one runs produces exactly such a schedule). -/
inductive Interleaves {α : Type} : List α → List α → List α → Prop where
  | nil : Interleaves [] [] []
  | left {x : α} {xs ys zs : List α} :
      Interleaves xs ys zs → Interleaves (x :: xs) ys (x :: zs)
  | right {y : α} {xs ys zs : List α} :
      Interleaves xs ys zs → Interleaves xs (y :: ys) (y :: zs)

-- ### Library index (`searchMusic`, `_applyFilters`, `getMusicList`, `getMusicById`)

/-- The structured filter set; `none` models the property being absent from
the filters object. -/
structure Filters where
  artist : Option String := none
  album : Option String := none
  genre : Option String := none
  format : Option String := none
  minDuration : Option ℚ := none
  maxDuration : Option ℚ := none
  deriving Repr, DecidableEq

/-- `_applyFilters(list, filters)`: each present-and-truthy filter narrows
the list in turn (`if (filters.artist) ...`; the empty string is falsy, and
for the numeric bounds `0` is falsy), then
`if (maxResults && filtered.length > maxResults)` truncates with `slice`. -/
def applyFilters (cfg : Config) (list : List MusicInfo) (f : Filters) : List MusicInfo :=
  let l := list
  let l := match f.artist with
    | some a => if a ≠ "" then l.filter (fun m => strIncludes (lowerStr m.artist) (lowerStr a)) else l
    | none => l
  let l := match f.album with
    | some a => if a ≠ "" then l.filter (fun m => strIncludes (lowerStr m.album) (lowerStr a)) else l
    | none => l
  let l := match f.genre with
    | some g => if g ≠ "" then
        l.filter (fun m => m.genre.any (fun x => strIncludes (lowerStr x) (lowerStr g))) else l
    | none => l
  let l := match f.format with
    | some fo => if fo ≠ "" then l.filter (fun m => m.format == lowerStr fo) else l
    | none => l
  let l := match f.minDuration with
    | some d => if d ≠ 0 then l.filter (fun m => decide (d ≤ m.duration)) else l
    | none => l
  let l := match f.maxDuration with
    | some d => if d ≠ 0 then l.filter (fun m => decide (m.duration ≤ d)) else l
    | none => l
  if cfg.maxResults ≠ 0 ∧ l.length > cfg.maxResults then l.take cfg.maxResults else l

/-- The spec's "entire filtered set": the same six filter steps but without
the result-size cap.  Stated from the spec's words for comparison with the
source's `applyFilters`. -/
def filteredSetNoCap (list : List MusicInfo) (f : Filters) : List MusicInfo :=
  let l := list
  let l := match f.artist with
    | some a => if a ≠ "" then l.filter (fun m => strIncludes (lowerStr m.artist) (lowerStr a)) else l
    | none => l
  let l := match f.album with
    | some a => if a ≠ "" then l.filter (fun m => strIncludes (lowerStr m.album) (lowerStr a)) else l
    | none => l
  let l := match f.genre with
    | some g => if g ≠ "" then
        l.filter (fun m => m.genre.any (fun x => strIncludes (lowerStr x) (lowerStr g))) else l
    | none => l
  let l := match f.format with
    | some fo => if fo ≠ "" then l.filter (fun m => m.format == lowerStr fo) else l
    | none => l
  let l := match f.minDuration with
    | some d => if d ≠ 0 then l.filter (fun m => decide (d ≤ m.duration)) else l
    | none => l
  let l := match f.maxDuration with
    | some d => if d ≠ 0 then l.filter (fun m => decide (m.duration ≤ d)) else l
    | none => l
  l

/-- `searchMusic(query, filters)`: empty / whitespace-only query goes
straight to `_applyFilters`; otherwise a case-insensitive substring match
over title, artist, album and any genre element, then `_applyFilters`. -/
def searchMusic (cfg : Config) (lib : List MusicInfo) (query : String) (f : Filters) :
    List MusicInfo :=
  if query = "" ∨ trimStr query = "" then applyFilters cfg lib f
  else
    let lowerQuery := trimStr (lowerStr query)
    let results := lib.filter (fun m =>
      strIncludes (lowerStr m.title) lowerQuery ||
      strIncludes (lowerStr m.artist) lowerQuery ||
      strIncludes (lowerStr m.album) lowerQuery ||
      m.genre.any (fun g => strIncludes (lowerStr g) lowerQuery))
    applyFilters cfg results f

/-- `getMusicById(id)`: first entry with matching id, if any. -/
def getMusicById (lib : List MusicInfo) (musicId : String) : Option MusicInfo :=
  lib.find? (fun m => m.id == musicId)

/-- Pagination argument of `getMusicList`; `none` models an absent
property. -/
structure Pagination where
  page : Option Nat := none
  pageSize : Option Nat := none
  deriving Repr, DecidableEq

/-- The object `getMusicList` returns. -/
structure MusicListResult where
  items : List MusicInfo
  total : Nat
  page : Nat
  pageSize : Nat
  totalPages : Nat
  deriving Repr, DecidableEq

/-- JS `v || d` for a number-valued property: absent and `0` both give the
default. -/
def jsOrNat (v : Option Nat) (d : Nat) : Nat :=
  match v with
  | some n => if n = 0 then d else n
  | none => d

/-- `Math.ceil(a / b)` for natural `a` and positive `b`. -/
def natCeilDiv (a b : Nat) : Nat := (a + b - 1) / b

/-- `getMusicList(filters, pagination)`: applies `_applyFilters`, resolves
`page || 1` and `pageSize || 50`, slices `[(page-1)*pageSize, ... + pageSize)`
and reports `total`, `totalPages = Math.ceil(total / pageSize)`. -/
def getMusicList (cfg : Config) (lib : List MusicInfo) (f : Filters) (pg : Pagination) :
    MusicListResult :=
  let list := applyFilters cfg lib f
  let page := jsOrNat pg.page 1
  let pageSize := jsOrNat pg.pageSize 50
  let start := (page - 1) * pageSize
  { items := (list.drop start).take pageSize
    total := list.length
    page := page
    pageSize := pageSize
    totalPages := natCeilDiv list.length pageSize }

-- ### Playback session (`playMusic` / `pauseMusic` / `resumeMusic` / `stopMusic`)

inductive PlaybackStatus where
  | stopped
  | playing
  | paused
  deriving Repr, DecidableEq

/-- The manager's playback state: `this.currentlyPlaying` and
`this.playbackStatus`, initialized to `null` / `'stopped'`. -/
structure PlayerState where
  currentlyPlaying : Option MusicInfo := none
  playbackStatus : PlaybackStatus := PlaybackStatus.stopped
  deriving Repr, DecidableEq

/-- The two throw sites of the playback methods: `'音乐不存在'` (unknown id,
the spec's NotFoundError) and `'没有正在播放的音乐'` (no current track, the
spec's InvalidStateError). -/
inductive MErr where
  | notFound
  | noCurrent
  deriving Repr, DecidableEq

def initState : PlayerState := {}

/-- `playMusic(musicId)`: throws before any mutation when the id does not
resolve; otherwise installs the entry and moves to `playing`. The returned
state is the post-call state (unchanged on throw). -/
def playMusic (lib : List MusicInfo) (s : PlayerState) (musicId : String) :
    Except MErr MusicInfo × PlayerState :=
  match getMusicById lib musicId with
  | none => (Except.error MErr.notFound, s)
  | some m =>
      (Except.ok m,
       { currentlyPlaying := some m, playbackStatus := PlaybackStatus.playing })

/-- `pauseMusic()`: throws when nothing is current, else sets `paused`. -/
def pauseMusic (s : PlayerState) : Except MErr MusicInfo × PlayerState :=
  match s.currentlyPlaying with
  | none => (Except.error MErr.noCurrent, s)
  | some m => (Except.ok m, { s with playbackStatus := PlaybackStatus.paused })

/-- `resumeMusic()`: throws when nothing is current, else sets `playing`. -/
def resumeMusic (s : PlayerState) : Except MErr MusicInfo × PlayerState :=
  match s.currentlyPlaying with
  | none => (Except.error MErr.noCurrent, s)
  | some m => (Except.ok m, { s with playbackStatus := PlaybackStatus.playing })

/-- `stopMusic()`: throws when nothing is current, else clears the current
entry and sets `stopped`. -/
def stopMusic (s : PlayerState) : Except MErr MusicInfo × PlayerState :=
  match s.currentlyPlaying with
  | none => (Except.error MErr.noCurrent, s)
  | some m =>
      (Except.ok m,
       { currentlyPlaying := none, playbackStatus := PlaybackStatus.stopped })

/-- One externally triggerable playback transition. -/
inductive PlayerOp where
  | play (id : String)
  | pause
  | resume
  | stop

def runOp (lib : List MusicInfo) (s : PlayerState) : PlayerOp → Except MErr MusicInfo × PlayerState
  | PlayerOp.play id => playMusic lib s id
  | PlayerOp.pause => pauseMusic s
  | PlayerOp.resume => resumeMusic s
  | PlayerOp.stop => stopMusic s

/-- State after a sequence of transition attempts (failed attempts leave the
state as the throw site left it). -/
def runOps (lib : List MusicInfo) (s : PlayerState) : List PlayerOp → PlayerState
  | [] => s
  | op :: ops => runOps lib (runOp lib s op).2 ops

-- ### Range streaming (`ApiServer.handleStreamMusic`)

/-- The byte source the handler pipes: the whole file
(`fs.createReadStream(path)`) or an inclusive byte range
(`fs.createReadStream(path, { start, end })`). -/
inductive ByteSource where
  | whole
  | range (start stop : Nat)
  deriving Repr, DecidableEq

/-- The response `handleStreamMusic` produces: status plus the headers it
sets; `body = none` models a response ended without a body. -/
structure StreamResponse where
  status : Nat
  contentRange : Option String := none
  acceptRanges : Option String := none
  contentLength : Option Int := none
  contentType : Option String := none
  body : Option ByteSource := none
  deriving Repr, DecidableEq

/-- `range.replace(/bytes=/, "")` for a header carrying the unit as a
prefix (standard Range headers; a non-prefix occurrence is not modelled). -/
def stripBytesUnit (r : String) : String :=
  if List.isPrefixOf "bytes=".toList r.toList then r.drop 6 else r

/-- JS `parseInt(s, 10)` restricted to the shapes a Range header can carry:
the leading digit run, `none` for NaN (no leading digits). -/
def jsParseInt (s : String) : Option Nat :=
  let ds := s.toList.takeWhile Char.isDigit
  if ds.isEmpty then none
  else some (ds.foldl (fun n c => 10 * n + (c.toNat - 48)) 0)

/-- `x >= bound` under JS number semantics where `x` may be NaN
(comparisons against NaN are false). -/
def nanGe (x : Option Nat) (bound : Nat) : Bool :=
  match x with
  | some v => bound ≤ v
  | none => false

/-- `range.replace(/bytes=/, "").split("-")`. -/
def rangeParts (range : String) : List String :=
  (splitOnChar '-' (stripBytesUnit range).toList).map String.mk

/-- `parseInt(parts[0], 10)`. -/
def rangeStart (range : String) : Option Nat :=
  jsParseInt ((rangeParts range).headD "")

/-- `parts[1] ? parseInt(parts[1], 10) : fileSize - 1` — the requested end,
defaulting to the last byte when the second part is absent or empty. -/
def rangeEnd (range : String) (fileSize : Nat) : Option Nat :=
  match (rangeParts range).drop 1 with
  | p1 :: _ => if p1 ≠ "" then jsParseInt p1 else some (fileSize - 1)
  | [] => some (fileSize - 1)

/-- The Range-handling core of `handleStreamMusic` once the entry is
resolved and the file found (size `fileSize`): no header → 200 full body;
else parse `bytes=start-end` (`end` defaulting to `fileSize - 1` when the
second part is absent or empty), answer 416 with `Content-Range: bytes
*/fileSize` and no body when `start >= fileSize || end >= fileSize`, else
206 with `Content-Range`, `Accept-Ranges`, `Content-Length = end-start+1`
and the inclusive byte range.  (A NaN bound that survives the 416 test makes
`createReadStream` throw; the surrounding catch maps that to a 500.) -/
def handleStreamMusic (music : MusicInfo) (fileSize : Nat) (rangeHeader : Option String) :
    StreamResponse :=
  match rangeHeader with
  | none =>
      { status := 200
        contentLength := some (fileSize : Int)
        contentType := some ("audio/" ++ music.format)
        body := some ByteSource.whole }
  | some range =>
      let startv : Option Nat := rangeStart range
      let endv : Option Nat := rangeEnd range fileSize
      if nanGe startv fileSize || nanGe endv fileSize then
        { status := 416
          contentRange := some ("bytes */" ++ toString fileSize) }
      else
        match startv, endv with
        | some s, some e =>
            { status := 206
              contentRange := some
                ("bytes " ++ toString s ++ "-" ++ toString e ++ "/" ++ toString fileSize)
              acceptRanges := some "bytes"
              contentLength := some ((e : Int) - (s : Int) + 1)
              contentType := some ("audio/" ++ music.format)
              body := some (ByteSource.range s e) }
        | _, _ => { status := 500 }

-- ### Realtime hub (`WebSocketServer`: heartbeat, pong handling, broadcast)

/-- One tracked realtime client, as stored in `this.clients`. -/
structure Client where
  id : String
  ip : String := ""
  connectedAt : String := ""
  lastMessageAt : String := ""
  isAlive : Bool := true
  deriving Repr, DecidableEq

/-- Observable outcome of one `_setupHeartbeat` interval callback. -/
structure HeartbeatResult where
  clients : List Client
  terminated : List String
  pinged : List String
  deriving Repr, DecidableEq

/-- One heartbeat interval callback: iterate the client map in insertion
order; a client with `isAlive = false` is terminated and deleted; every
other client is marked `isAlive = false` and pinged. -/
def heartbeatTick (cs : List Client) : HeartbeatResult :=
  { clients := (cs.filter (fun c => c.isAlive)).map (fun c => { c with isAlive := false })
    terminated := (cs.filter (fun c => !c.isAlive)).map (fun c => c.id)
    pinged := (cs.filter (fun c => c.isAlive)).map (fun c => c.id) }

/-- The `pong` handler for one client id: look it up and, when still
tracked, set `isAlive = true` and refresh `lastMessageAt`.  (The JS map is
keyed by id, so at most one entry matches.) -/
def markPong (cs : List Client) (clientId : String) (now : String) : List Client :=
  cs.map (fun c =>
    if c.id = clientId then { c with isAlive := true, lastMessageAt := now } else c)

/-- Pong handlers for a batch of client ids arriving between two heartbeat
intervals. -/
def markPongs (cs : List Client) (pongs : List String) (now : String) : List Client :=
  pongs.foldl (fun acc p => markPong acc p now) cs

/-- `broadcast(data, excludeClientId)`: the ids delivery is attempted to —
every tracked client except the excluded one. -/
def broadcastRecipients (cs : List Client) (excludeClientId : Option String) : List String :=
  (cs.filter (fun c => decide (some c.id ≠ excludeClientId))).map (fun c => c.id)

-- ### Concrete fixtures used by witnesses and counterexamples

/-- The default configuration of `configLoader.js`. -/
def cfgDefault : Config := {}

/-- A default configuration narrowed to `maxResults = 1`. -/
def cfg1 : Config := { maxResults := 1 }

/-- A default configuration narrowed to `maxResults = 2`. -/
def cfg2 : Config := { maxResults := 2 }

/-- Fully tagged metadata for a parsable file. -/
def metaA : FileMeta :=
  { title := some "Song A", artist := some "Alice", album := some "Album X",
    genre := some ["Rock"], duration := some 200, year := some "1999",
    trackNo := some 3, diskNo := some 1, bitrate := some 320,
    sampleRate := some 44100, channels := some 2 }

/-- A parsable `.mp3` file. -/
def fileA : ScanFile :=
  { name := "a.mp3", meta := some metaA, ident := "idA", now := "T0", mtime := "M0" }

/-- An `.mp3` file whose header `parseFile` cannot parse. -/
def fileB : ScanFile := { name := "b.mp3", ident := "idB", now := "T0" }

/-- An unparsable file with an upper-case extension. -/
def fileU : ScanFile := { name := "SONG.MP3", ident := "idU", now := "T0" }

/-- A catalog entry with the given id, title and artist. -/
def mkE (ident title artist : String) : MusicInfo :=
  { id := ident, title := title, artist := artist, album := "al", genre := ["g"],
    duration := 100, year := "2000", trackNumber := some 1, discNumber := some 1,
    path := "/m/" ++ title, filename := title, format := "mp3", coverArt := false,
    bitrate := some 1, sampleRate := some 1, channels := some 2, addedAt := "T",
    modifiedAt := some "M", coverMimeType := none }

def e1 : MusicInfo := mkE "1" "t1" "a1"
def e2 : MusicInfo := mkE "2" "t2" "a2"
def e3 : MusicInfo := mkE "3" "t3" "a3"

/-- A ten-entry catalog. -/
def lib10 : List MusicInfo := (List.range 10).map (fun i => mkE (toString i) (toString i) "a")

def cl1 : Client := { id := "c1" }
def cl2 : Client := { id := "c2" }

/-- The entry a scan of `root/[fileA]` produces. -/
def c1entry : MusicInfo := extractMusicInfo "root/a.mp3" fileA

/-- A schedule of two overlapping scans of the one-file tree: first run
clears, second run clears, then each pushes its entry. -/
def c1z : List ScanEv :=
  [ScanEv.clear, ScanEv.clear, ScanEv.push c1entry, ScanEv.push c1entry]

-- ### Supporting lemmas

/-- The walk collects exactly the supported files of the tree. -/
theorem scanDirectory_length (cfg : Config) :
    ∀ (dirPath : String) (es : List FsEntry),
      (scanDirectory cfg dirPath es).length = supportedCount cfg es
  | _, [] => by simp [scanDirectory, supportedCount]
  | dirPath, FsEntry.file f :: rest => by
      rw [scanDirectory, supportedCount]
      rw [List.length_append, scanDirectory_length cfg dirPath rest]
      by_cases h : isSupportedFormat cfg f.name <;> simp [h]
  | dirPath, FsEntry.dir name sub :: rest => by
      rw [scanDirectory, supportedCount]
      rw [List.length_append, scanDirectory_length cfg _ sub,
        scanDirectory_length cfg dirPath rest]

theorem runEvents_clear_cons (lib : List MusicInfo) (evs : List ScanEv) :
    runEvents lib (ScanEv.clear :: evs) = runEvents [] evs := rfl

theorem runEvents_push_cons (lib : List MusicInfo) (m : MusicInfo) (evs : List ScanEv) :
    runEvents lib (ScanEv.push m :: evs) = runEvents (lib ++ [m]) evs := rfl

theorem runEvents_pushes (es : List MusicInfo) :
    ∀ (lib : List MusicInfo), runEvents lib (es.map ScanEv.push) = lib ++ es := by
  induction es with
  | nil => intro lib; simp [runEvents]
  | cons a es ih =>
      intro lib
      rw [List.map_cons, runEvents_push_cons, ih]
      simp

theorem interleaves_symm {α : Type} {xs ys zs : List α}
    (h : Interleaves xs ys zs) : Interleaves ys xs zs := by
  induction h with
  | nil => exact Interleaves.nil
  | left _ ih => exact Interleaves.right ih
  | right _ ih => exact Interleaves.left ih

/-- An interleaving of pure push traces appends the corresponding
interleaving of the pushed entries, whatever the initial library. -/
theorem interleaves_pushes_aux :
    ∀ {as bs zs : List ScanEv}, Interleaves as bs zs →
      ∀ (pa pb : List MusicInfo),
        as = pa.map ScanEv.push → bs = pb.map ScanEv.push →
        ∃ m, Interleaves pa pb m ∧ ∀ lib, runEvents lib zs = lib ++ m := by
  intro as bs zs h
  induction h with
  | nil =>
      intro pa pb ha hb
      cases pa with
      | cons a pa => exact absurd ha (by simp)
      | nil =>
          cases pb with
          | cons b pb => exact absurd hb (by simp)
          | nil => exact ⟨[], Interleaves.nil, fun lib => by simp [runEvents]⟩
  | left h ih =>
      intro pa pb ha hb
      cases pa with
      | nil => exact absurd ha (by simp)
      | cons a pa =>
          rw [List.map_cons, List.cons.injEq] at ha
          obtain ⟨m, hm, hr⟩ := ih pa pb ha.2 hb
          refine ⟨a :: m, Interleaves.left hm, fun lib => ?_⟩
          rw [ha.1, runEvents_push_cons, hr (lib ++ [a])]
          simp
  | right h ih =>
      intro pa pb ha hb
      cases pb with
      | nil => exact absurd hb (by simp)
      | cons b pb =>
          rw [List.map_cons, List.cons.injEq] at hb
          obtain ⟨m, hm, hr⟩ := ih pa pb ha hb.2
          refine ⟨b :: m, Interleaves.right hm, fun lib => ?_⟩
          rw [hb.1, runEvents_push_cons, hr (lib ++ [b])]
          simp

/-- When the second run's clear is still pending, the final library is an
interleaving of the second run's full entry list with some suffix of the
first run's remaining entries, independent of the library's prior
contents. -/
theorem clear_second_aux :
    ∀ {as bs zs : List ScanEv}, Interleaves as bs zs →
      ∀ (pa pb : List MusicInfo),
        as = pa.map ScanEv.push → bs = ScanEv.clear :: pb.map ScanEv.push →
        ∃ ta m, ta <:+ pa ∧ Interleaves ta pb m ∧ ∀ lib, runEvents lib zs = m := by
  intro as bs zs h
  induction h with
  | nil => intro pa pb _ hb; exact absurd hb (by simp)
  | left h ih =>
      intro pa pb ha hb
      cases pa with
      | nil => exact absurd ha (by simp)
      | cons a pa =>
          rw [List.map_cons, List.cons.injEq] at ha
          obtain ⟨ta, m, hta, hm, hr⟩ := ih pa pb ha.2 hb
          refine ⟨ta, m, hta.trans (List.suffix_cons a pa), hm, fun lib => ?_⟩
          rw [ha.1, runEvents_push_cons, hr (lib ++ [a])]
  | right h ih =>
      intro pa pb ha hb
      rw [List.cons.injEq] at hb
      obtain ⟨m, hm, hr⟩ := interleaves_pushes_aux h pa pb ha hb.2
      refine ⟨pa, m, List.suffix_refl pa, hm, fun lib => ?_⟩
      rw [hb.1, runEvents_clear_cons, hr []]
      simp

/-- Any schedule of two concurrent scan traces ends with the library
holding an interleaving of the later-clearing run's full catalog with a
suffix of the other run's catalog — whatever the library held before. -/
theorem scan_overlap_chars {pa pb : List MusicInfo} {zs : List ScanEv}
    (h : Interleaves (ScanEv.clear :: pa.map ScanEv.push)
      (ScanEv.clear :: pb.map ScanEv.push) zs) :
    ∃ ta tb m, ta <:+ pa ∧ tb <:+ pb ∧ (ta = pa ∨ tb = pb)
      ∧ Interleaves ta tb m ∧ ∀ lib, runEvents lib zs = m := by
  cases h with
  | left h =>
      obtain ⟨ta, m, hta, hm, hr⟩ := clear_second_aux h pa pb rfl rfl
      exact ⟨ta, pb, m, hta, List.suffix_refl pb, Or.inr rfl, hm, fun lib => by
        rw [runEvents_clear_cons, hr []]⟩
  | right h =>
      obtain ⟨tb, m, htb, hm, hr⟩ :=
        clear_second_aux (interleaves_symm h) pb pa rfl rfl
      exact ⟨pa, tb, m, List.suffix_refl pa, htb, Or.inl rfl, interleaves_symm hm,
        fun lib => by rw [runEvents_clear_cons, hr []]⟩

-- ### C1 — snapshot visibility during a scan

/-- C1 counterexample: with a one-entry pre-scan catalog and a scan of one
file, the library value a concurrent reader observes right after the scan
starts (the `k = 0` await point, after `this.musicLibrary = []`) is the
empty list — neither the pre-scan snapshot nor the completed new one, so a
concurrent read can observe a catalog that is not a complete snapshot. -/
theorem C1_counterexample :
    midScanLibrary cfgDefault "root" [FsEntry.file fileA] 0 = []
    ∧ [e1] ≠ ([] : List MusicInfo)
    ∧ scanLibrary cfgDefault "root" [FsEntry.file fileA] ≠ [] := by
  refine ⟨rfl, by decide, ?_⟩
  rw [scanLibrary, scanDirectory, scanDirectory]
  decide

/-- C1 amended: `scanLibrary` rebuilds the library in place and has no
in-flight guard.  For a single scan, a concurrent reader at point `k`
observes exactly the first `k` entries of the new catalog (the empty
catalog right after the clear), the pre-scan snapshot being unavailable
from scan start, and an uninterrupted run completes with the full new
catalog.  For a rescan started while a scan is in flight — any interleaving
of the two mutation traces — the run whose clear comes later survives
whole: the completed library is an interleaving of that run's full catalog
with a leftover suffix of the other run's catalog (so the same file's
entry can appear twice), independent of the pre-scan contents, and in
general not a complete snapshot of either scan. -/
theorem C1_scan_in_place_and_overlap :
    ∀ (cfg : Config) (root : String) (tree : List FsEntry) (k : Nat),
      (midScanLibrary cfg root tree k = (scanLibrary cfg root tree).take k
      ∧ midScanLibrary cfg root tree 0 = []
      ∧ ∀ (lib : List MusicInfo),
          runEvents lib (scanEvents cfg root tree) = scanLibrary cfg root tree)
    ∧ ∀ (cfg₂ : Config) (root₂ : String) (tree₂ : List FsEntry) (zs : List ScanEv),
        Interleaves (scanEvents cfg root tree) (scanEvents cfg₂ root₂ tree₂) zs →
        ∃ ta tb m,
          ta <:+ scanLibrary cfg root tree
          ∧ tb <:+ scanLibrary cfg₂ root₂ tree₂
          ∧ (ta = scanLibrary cfg root tree ∨ tb = scanLibrary cfg₂ root₂ tree₂)
          ∧ Interleaves ta tb m
          ∧ ∀ (lib : List MusicInfo), runEvents lib zs = m := by
  intro cfg root tree k
  refine ⟨⟨?_, ?_, ?_⟩, ?_⟩
  · rw [midScanLibrary, scanLibrary, List.map_take]
  · rw [midScanLibrary]
    simp
  · intro lib
    rw [scanEvents, runEvents_clear_cons, runEvents_pushes]
    simp
  · intro cfg₂ root₂ tree₂ zs hz
    rw [scanEvents, scanEvents] at hz
    exact scan_overlap_chars hz

/-- Witness for C1's overlap clause: two overlapping scans of the same
one-file tree, scheduled clear-clear-push-push, end with the file's entry
duplicated — two entries for a one-file library — independent of the
pre-scan catalog. -/
theorem C1_witness :
    runEvents [e1] c1z = runEvents [] c1z
    ∧ runEvents [e1] c1z = [c1entry, c1entry]
    ∧ (scanLibrary cfgDefault "root" [FsEntry.file fileA]).length = 1 := by
  have hs : scanEvents cfgDefault "root" [FsEntry.file fileA]
      = [ScanEv.clear, ScanEv.push c1entry] := by
    rw [scanEvents, scanLibrary, scanDirectory, scanDirectory]
    decide
  have hint : Interleaves (scanEvents cfgDefault "root" [FsEntry.file fileA])
      (scanEvents cfgDefault "root" [FsEntry.file fileA]) c1z := by
    rw [hs]
    exact Interleaves.left (Interleaves.right
      (Interleaves.left (Interleaves.right Interleaves.nil)))
  obtain ⟨ta, tb, m, _, _, _, _, hr⟩ :=
    (C1_scan_in_place_and_overlap cfgDefault "root" [FsEntry.file fileA] 0).2
      cfgDefault "root" [FsEntry.file fileA] c1z hint
  refine ⟨(hr [e1]).trans (hr []).symm, by decide, ?_⟩
  rw [scanLibrary, scanDirectory, scanDirectory]
  decide

-- ### C2 — entry count and fallback fields

/-- C2 counterexample: scanning a root with exactly one supported file whose
header is unparsable yields one entry whose `trackNumber`, `discNumber`,
`bitrate`, `sampleRate`, `channels` and `modifiedAt` properties are all
absent — the fallback entry does not populate every required field. -/
theorem C2_counterexample :
    (scanLibrary cfgDefault "root" [FsEntry.file fileB]).length = 1
    ∧ (scanLibrary cfgDefault "root" [FsEntry.file fileB]).map (fun m => m.trackNumber) = [none]
    ∧ (scanLibrary cfgDefault "root" [FsEntry.file fileB]).map (fun m => m.discNumber) = [none]
    ∧ (scanLibrary cfgDefault "root" [FsEntry.file fileB]).map (fun m => m.bitrate) = [none]
    ∧ (scanLibrary cfgDefault "root" [FsEntry.file fileB]).map (fun m => m.sampleRate) = [none]
    ∧ (scanLibrary cfgDefault "root" [FsEntry.file fileB]).map (fun m => m.channels) = [none]
    ∧ (scanLibrary cfgDefault "root" [FsEntry.file fileB]).map (fun m => m.modifiedAt) = [none] := by
  rw [scanLibrary, scanDirectory, scanDirectory]
  refine ⟨by decide, by decide, by decide, by decide, by decide, by decide, by decide⟩

/-- C2 amended: a scan yields exactly one entry per supported file (the
extraction never drops a file), but every entry — whether or not its header
parses — is the catch-branch fallback entry, because the success path's
`modifiedAt` expression throws for every file: it populates title (from
the filename), artist, album, genre, duration, year, path, filename,
format, the cover-art flag and addedAt, and omits trackNumber, discNumber,
bitrate, sampleRate, channels and modifiedAt. -/
theorem C2_count_and_fallback_fields :
    ∀ (cfg : Config) (root : String) (tree : List FsEntry) (p : String) (f : ScanFile),
      (scanLibrary cfg root tree).length = supportedCount cfg tree
    ∧ extractMusicInfo p f = extractMusicInfo p { f with meta := none }
    ∧ ((extractMusicInfo p f).title = basenameNoExt p (extname p)
      ∧ (extractMusicInfo p f).artist = "未知艺术家"
      ∧ (extractMusicInfo p f).album = "未知专辑"
      ∧ (extractMusicInfo p f).genre = ["未知流派"]
      ∧ (extractMusicInfo p f).duration = 0
      ∧ (extractMusicInfo p f).year = "未知年份"
      ∧ (extractMusicInfo p f).path = p
      ∧ (extractMusicInfo p f).filename = basenameOf p
      ∧ (extractMusicInfo p f).format = (extname p).drop 1
      ∧ (extractMusicInfo p f).coverArt = false
      ∧ (extractMusicInfo p f).addedAt = f.now
      ∧ (extractMusicInfo p f).trackNumber = none
      ∧ (extractMusicInfo p f).discNumber = none
      ∧ (extractMusicInfo p f).bitrate = none
      ∧ (extractMusicInfo p f).sampleRate = none
      ∧ (extractMusicInfo p f).channels = none
      ∧ (extractMusicInfo p f).modifiedAt = none) := by
  intro cfg root tree p f
  refine ⟨?_, rfl, rfl, rfl, rfl, rfl, rfl, rfl, rfl, rfl, rfl, rfl, rfl,
    rfl, rfl, rfl, rfl, rfl, rfl⟩
  rw [scanLibrary, List.length_map, scanDirectory_length]

-- ### C3 — result-size cap on search / filter / list

/-- C3 counterexample: with a maximum result count of 2 and a three-entry
catalog and no filters, `getMusicList` reports `total = 2` while the entire
filtered set has 3 entries — `list` is truncated by the cap, contrary to the
claim that it never is. -/
theorem C3_counterexample :
    (getMusicList cfg2 [e1, e2, e3] {} {}).total = 2
    ∧ (filteredSetNoCap [e1, e2, e3] {}).length = 3
    ∧ (getMusicList cfg2 [e1, e2, e3] {} { pageSize := some 2 }).totalPages = 1 := by
  refine ⟨by decide, by decide, by decide⟩

/-- C3 amended: the configured maximum result count silently truncates the
output of `search` and of `filter` — and of `list` as well: `getMusicList`
paginates over the capped filtered set and reports `total`/`totalPages` for
the capped set, i.e. `total = min (filtered size) maxResults` whenever the
cap is configured. -/
theorem C3_cap_applies_to_list_too :
    ∀ (cfg : Config) (lib : List MusicInfo) (f : Filters) (q : String) (pg : Pagination),
      applyFilters cfg lib f =
        (if cfg.maxResults ≠ 0 ∧ (filteredSetNoCap lib f).length > cfg.maxResults
         then (filteredSetNoCap lib f).take cfg.maxResults
         else filteredSetNoCap lib f)
    ∧ (cfg.maxResults ≠ 0 → (searchMusic cfg lib q f).length ≤ cfg.maxResults)
    ∧ (getMusicList cfg lib f pg).total = (applyFilters cfg lib f).length
    ∧ (cfg.maxResults ≠ 0 →
        (getMusicList cfg lib f pg).total
          = min (filteredSetNoCap lib f).length cfg.maxResults) := by
  intro cfg lib f q pg
  have hcap : ∀ (l : List MusicInfo), applyFilters cfg l f =
      (if cfg.maxResults ≠ 0 ∧ (filteredSetNoCap l f).length > cfg.maxResults
       then (filteredSetNoCap l f).take cfg.maxResults
       else filteredSetNoCap l f) := fun l => rfl
  have hlen : ∀ (l : List MusicInfo), cfg.maxResults ≠ 0 →
      (applyFilters cfg l f).length ≤ cfg.maxResults := by
    intro l hne
    rw [hcap l]
    by_cases hgt : (filteredSetNoCap l f).length > cfg.maxResults
    · simp [hne, hgt, List.length_take]
    · simp [hne, hgt]
      omega
  refine ⟨hcap lib, ?_, rfl, ?_⟩
  · intro hne
    rw [searchMusic]
    by_cases hq : q = "" ∨ trimStr q = ""
    · simp only [if_pos hq]
      exact hlen lib hne
    · simp only [if_neg hq]
      exact hlen _ hne
  · intro hne
    show (applyFilters cfg lib f).length = _
    rw [hcap lib]
    by_cases hgt : (filteredSetNoCap lib f).length > cfg.maxResults
    · simp [hne, hgt, List.length_take]
      omega
    · simp [hne, hgt]
      omega

/-- Witness for the amended C3: with cap 2 and three entries, `search` and
`filter` return 2 entries and `list` reports `total = min 3 2 = 2`. -/
theorem C3_witness :
    ((2 : Nat) ≠ 0 ∧ (searchMusic cfg2 [e1, e2, e3] "t" {}).length ≤ 2)
    ∧ (getMusicList cfg2 [e1, e2, e3] {} {}).total
        = min (filteredSetNoCap [e1, e2, e3] {}).length 2 := by
  have h := C3_cap_applies_to_list_too cfg2 [e1, e2, e3] {} "t" {}
  exact ⟨⟨by decide, h.2.1 (by decide)⟩, h.2.2.2 (by decide)⟩

-- ### C4 — search with the empty query

/-- C4 counterexample: with a configured maximum of 1 result and a
two-entry snapshot, `search("")` with no filters returns only the first
entry, not every entry of the snapshot. -/
theorem C4_counterexample :
    searchMusic cfg1 [e1, e2] "" {} = [e1]
    ∧ [e1] ≠ [e1, e2] := by
  refine ⟨by decide, by decide⟩

/-- C4 amended: `search("")` with no filters returns the snapshot truncated
to the configured maximum result count, in snapshot order — the whole
snapshot exactly when no cap is configured (or, by `List.take`, whenever
the snapshot does not exceed the cap). -/
theorem C4_search_empty_query :
    ∀ (cfg : Config) (lib : List MusicInfo),
      (cfg.maxResults = 0 → searchMusic cfg lib "" {} = lib)
    ∧ (cfg.maxResults ≠ 0 → searchMusic cfg lib "" {} = lib.take cfg.maxResults) := by
  intro cfg lib
  have hbase : searchMusic cfg lib "" {} =
      (if cfg.maxResults ≠ 0 ∧ lib.length > cfg.maxResults
       then lib.take cfg.maxResults else lib) := rfl
  refine ⟨?_, ?_⟩
  · intro h0
    rw [hbase]
    simp [h0]
  · intro hne
    rw [hbase]
    by_cases hgt : lib.length > cfg.maxResults
    · simp [hne, hgt]
    · simp only [hne, hgt, and_false, ne_eq, not_false_iff, true_and, if_false]
      exact (List.take_of_length_le (by omega)).symm

/-- Witness for the amended C4: under the default cap of 100 a two-entry
snapshot is returned whole, and under a cap of 1 it is cut to one entry. -/
theorem C4_witness :
    ((100 : Nat) ≠ 0 ∧ searchMusic cfgDefault [e1, e2] "" {} = [e1, e2].take 100)
    ∧ ((1 : Nat) ≠ 0 ∧ searchMusic cfg1 [e1, e2] "" {} = [e1, e2].take 1) := by
  exact ⟨⟨by decide, (C4_search_empty_query cfgDefault [e1, e2]).2 (by decide)⟩,
    ⟨by decide, (C4_search_empty_query cfg1 [e1, e2]).2 (by decide)⟩⟩

-- ### C5 — playback session state machine

/-- The session invariant: no current entry exactly when stopped. -/
def SessionInv (s : PlayerState) : Prop :=
  s.currentlyPlaying = none ↔ s.playbackStatus = PlaybackStatus.stopped

theorem sessionInv_init : SessionInv initState := by
  constructor <;> intro <;> rfl

theorem sessionInv_step (lib : List MusicInfo) (s : PlayerState) (op : PlayerOp)
    (h : SessionInv s) : SessionInv (runOp lib s op).2 := by
  cases op with
  | play id =>
      rw [runOp, playMusic]
      cases getMusicById lib id with
      | none => exact h
      | some m => constructor <;> intro hx <;> simp at hx
  | pause =>
      rw [runOp, pauseMusic]
      cases hc : s.currentlyPlaying with
      | none => exact h
      | some m =>
          constructor <;> intro hx <;> simp_all [SessionInv, hc]
  | resume =>
      rw [runOp, resumeMusic]
      cases hc : s.currentlyPlaying with
      | none => exact h
      | some m =>
          constructor <;> intro hx <;> simp_all [SessionInv, hc]
  | stop =>
      rw [runOp, stopMusic]
      cases hc : s.currentlyPlaying with
      | none => exact h
      | some m => constructor <;> intro <;> rfl

theorem sessionInv_runOps (lib : List MusicInfo) (ops : List PlayerOp) :
    ∀ (s : PlayerState), SessionInv s → SessionInv (runOps lib s ops) := by
  induction ops with
  | nil => intro s h; exact h
  | cons op rest ih =>
      intro s h
      rw [runOps]
      exact ih _ (sessionInv_step lib s op h)

/-- C5: the session starts as `{stopped, none}`; after any sequence of
play/pause/resume/stop attempts the reachable state satisfies
`currentlyPlaying = none ↔ status = stopped`; `pause`, `resume` and `stop`
throw the no-current-track error (the spec's InvalidStateError) exactly
when the status is `stopped`; `pause` is idempotent from `paused`, `resume`
is idempotent from `playing`; and a successful `stop` clears the current
entry and sets `stopped`. -/
theorem C5_playback_state_machine :
    (initState.currentlyPlaying = none
      ∧ initState.playbackStatus = PlaybackStatus.stopped)
  ∧ ∀ (lib : List MusicInfo) (ops : List PlayerOp) (s : PlayerState),
      s = runOps lib initState ops →
      ((s.currentlyPlaying = none ↔ s.playbackStatus = PlaybackStatus.stopped)
      ∧ ((pauseMusic s).1 = Except.error MErr.noCurrent
          ↔ s.playbackStatus = PlaybackStatus.stopped)
      ∧ ((resumeMusic s).1 = Except.error MErr.noCurrent
          ↔ s.playbackStatus = PlaybackStatus.stopped)
      ∧ ((stopMusic s).1 = Except.error MErr.noCurrent
          ↔ s.playbackStatus = PlaybackStatus.stopped)
      ∧ (s.playbackStatus = PlaybackStatus.paused → (pauseMusic s).2 = s)
      ∧ (s.playbackStatus = PlaybackStatus.playing → (resumeMusic s).2 = s)
      ∧ (s.playbackStatus ≠ PlaybackStatus.stopped →
          (stopMusic s).2.currentlyPlaying = none
          ∧ (stopMusic s).2.playbackStatus = PlaybackStatus.stopped)) := by
  refine ⟨⟨rfl, rfl⟩, ?_⟩
  intro lib ops s hs
  have hinv : SessionInv s := hs ▸ sessionInv_runOps lib ops initState sessionInv_init
  refine ⟨hinv, ?_, ?_, ?_, ?_, ?_, ?_⟩
  · rw [pauseMusic]
    cases hc : s.currentlyPlaying with
    | none => simpa using hinv.mp hc
    | some m =>
        simp only []
        constructor
        · intro hx; exact absurd hx (by simp)
        · intro hstop
          exact absurd (hinv.mpr hstop) (by simp [hc])
  · rw [resumeMusic]
    cases hc : s.currentlyPlaying with
    | none => simpa using hinv.mp hc
    | some m =>
        simp only []
        constructor
        · intro hx; exact absurd hx (by simp)
        · intro hstop
          exact absurd (hinv.mpr hstop) (by simp [hc])
  · rw [stopMusic]
    cases hc : s.currentlyPlaying with
    | none => simpa using hinv.mp hc
    | some m =>
        simp only []
        constructor
        · intro hx; exact absurd hx (by simp)
        · intro hstop
          exact absurd (hinv.mpr hstop) (by simp [hc])
  · intro hp
    rw [pauseMusic]
    cases hc : s.currentlyPlaying with
    | none => exact absurd (hinv.mp hc) (by simp [hp])
    | some m =>
        simp only []
        cases s
        simp_all
  · intro hp
    rw [resumeMusic]
    cases hc : s.currentlyPlaying with
    | none => exact absurd (hinv.mp hc) (by simp [hp])
    | some m =>
        simp only []
        cases s
        simp_all
  · intro hne
    rw [stopMusic]
    cases hc : s.currentlyPlaying with
    | none => exact absurd (hinv.mp hc) hne
    | some m => exact ⟨rfl, rfl⟩

/-- Witness for C5 at a concrete run: playing entry `"1"` then pausing
reaches `paused`, where `pause` is a no-op and `stop` resets the session. -/
theorem C5_witness :
    (runOps [e1] initState [PlayerOp.play "1", PlayerOp.pause]).playbackStatus
        = PlaybackStatus.paused
    ∧ (pauseMusic (runOps [e1] initState [PlayerOp.play "1", PlayerOp.pause])).2
        = runOps [e1] initState [PlayerOp.play "1", PlayerOp.pause]
    ∧ (stopMusic (runOps [e1] initState [PlayerOp.play "1", PlayerOp.pause])).2.currentlyPlaying
        = none := by
  have h := (C5_playback_state_machine.2 [e1] [PlayerOp.play "1", PlayerOp.pause]
    (runOps [e1] initState [PlayerOp.play "1", PlayerOp.pause]) rfl)
  exact ⟨by decide, h.2.2.2.2.1 (by decide), (h.2.2.2.2.2.2 (by decide)).1⟩

-- ### C6 — play with an unknown id

/-- C6: when the id does not resolve in the current snapshot, `playMusic`
throws the not-found error (the spec's NotFoundError) and the session state
is exactly the state before the call. -/
theorem C6_play_absent_id :
    ∀ (lib : List MusicInfo) (s : PlayerState) (musicId : String),
      getMusicById lib musicId = none →
      playMusic lib s musicId = (Except.error MErr.notFound, s) := by
  intro lib s musicId h
  rw [playMusic, h]

/-- Witness for C6: id `"zzz"` is absent from the one-entry snapshot, and
`playMusic` returns the not-found error with the state unchanged. -/
theorem C6_witness :
    getMusicById [e1] "zzz" = none
    ∧ playMusic [e1] initState "zzz" = (Except.error MErr.notFound, initState) :=
  ⟨by decide, C6_play_absent_id [e1] initState "zzz" (by decide)⟩

-- ### C7 — byte-range streaming

/-- C7: for a resolved entry over a file of size `fileSize`, a Range header
parsing to `start = s` and (after the file-end default) `end = e` with
`s ≤ e < fileSize` yields 206 with `Content-Range: bytes s-e/fileSize`,
`Accept-Ranges: bytes`, `Content-Length = e - s + 1` and the inclusive byte
source `[s, e]`; and one with `s ≥ fileSize` or `e ≥ fileSize` yields 416
with `Content-Range: bytes */fileSize` and no body. -/
theorem C7_range_streaming :
    ∀ (music : MusicInfo) (fileSize : Nat) (range : String) (s e : Nat),
      rangeStart range = some s →
      rangeEnd range fileSize = some e →
      ((s ≤ e → e < fileSize →
        handleStreamMusic music fileSize (some range) =
          { status := 206
            contentRange := some
              ("bytes " ++ toString s ++ "-" ++ toString e ++ "/" ++ toString fileSize)
            acceptRanges := some "bytes"
            contentLength := some ((e : Int) - (s : Int) + 1)
            contentType := some ("audio/" ++ music.format)
            body := some (ByteSource.range s e) })
      ∧ (fileSize ≤ s ∨ fileSize ≤ e →
        handleStreamMusic music fileSize (some range) =
          { status := 416
            contentRange := some ("bytes */" ++ toString fileSize) })) := by
  intro music fileSize range s e hs he
  constructor
  · intro hse hlt
    rw [handleStreamMusic]
    simp only [hs, he, nanGe]
    have h1 : ¬ (fileSize ≤ s) := by omega
    have h2 : ¬ (fileSize ≤ e) := by omega
    simp [h1, h2]
  · intro hge
    rw [handleStreamMusic]
    simp only [hs, he, nanGe]
    have : (decide (fileSize ≤ s) || decide (fileSize ≤ e)) = true := by
      rcases hge with h | h
      · simp [h]
      · simp [h]
    simp [this]

/-- Witness for C7: on a 1000-byte file, `bytes=0-99` yields 206 with
`Content-Length: 100` and `Content-Range: bytes 0-99/1000`, and
`bytes=2000-3000` yields 416 with `Content-Range: bytes */1000`. -/
theorem C7_witness :
    (rangeStart "bytes=0-99" = some 0 ∧ rangeEnd "bytes=0-99" 1000 = some 99
      ∧ handleStreamMusic e1 1000 (some "bytes=0-99") =
        { status := 206
          contentRange := some "bytes 0-99/1000"
          acceptRanges := some "bytes"
          contentLength := some 100
          contentType := some "audio/mp3"
          body := some (ByteSource.range 0 99) })
    ∧ (rangeStart "bytes=2000-3000" = some 2000
      ∧ rangeEnd "bytes=2000-3000" 1000 = some 3000
      ∧ handleStreamMusic e1 1000 (some "bytes=2000-3000") =
        { status := 416
          contentRange := some "bytes */1000" }) := by
  refine ⟨⟨by decide, by decide, ?_⟩, ⟨by decide, by decide, ?_⟩⟩
  · exact ((C7_range_streaming e1 1000 "bytes=0-99" 0 99 (by decide) (by decide)).1
      (by decide) (by decide))
  · exact ((C7_range_streaming e1 1000 "bytes=2000-3000" 2000 3000
      (by decide) (by decide)).2 (Or.inl (by decide)))

-- ### C8 — out-of-range pages in list

/-- C8: for any catalog, filter set and pagination whose resolved 1-indexed
page (default 1) and page size (default 50) place the page start at or past
the end of the filtered set, `getMusicList` returns an empty item sequence
together with the filtered set's `total` and `totalPages =
ceil(total / pageSize)` — and, being a total function, never an error. -/
theorem C8_list_out_of_range_page :
    ∀ (cfg : Config) (lib : List MusicInfo) (f : Filters) (pg : Pagination)
      (page pageSize : Nat),
      page = jsOrNat pg.page 1 →
      pageSize = jsOrNat pg.pageSize 50 →
      (applyFilters cfg lib f).length ≤ (page - 1) * pageSize →
      ((getMusicList cfg lib f pg).items = []
      ∧ (getMusicList cfg lib f pg).total = (applyFilters cfg lib f).length
      ∧ (getMusicList cfg lib f pg).totalPages
          = natCeilDiv (applyFilters cfg lib f).length pageSize
      ∧ (getMusicList cfg lib f pg).page = page
      ∧ (getMusicList cfg lib f pg).pageSize = pageSize) := by
  intro cfg lib f pg page pageSize hp hps hlen
  subst hp hps
  refine ⟨?_, rfl, rfl, rfl, rfl⟩
  show ((applyFilters cfg lib f).drop _).take _ = []
  rw [List.drop_eq_nil_of_le hlen, List.take_nil]

/-- Witness for C8 (the spec's own example): page 999 of size 50 over a
ten-entry catalog yields no items, `total = 10`, `totalPages = 1`. -/
theorem C8_witness :
    ((999 : Nat) = jsOrNat (some 999) 1
    ∧ (50 : Nat) = jsOrNat (some 50) 50
    ∧ (applyFilters cfgDefault lib10 {}).length ≤ (999 - 1) * 50)
    ∧ (getMusicList cfgDefault lib10 {} { page := some 999, pageSize := some 50 }).items = []
    ∧ (getMusicList cfgDefault lib10 {} { page := some 999, pageSize := some 50 }).total = 10
    ∧ (getMusicList cfgDefault lib10 {} { page := some 999, pageSize := some 50 }).totalPages
        = 1 := by
  have h := C8_list_out_of_range_page cfgDefault lib10 {}
    { page := some 999, pageSize := some 50 } 999 50 (by decide) (by decide) (by decide)
  refine ⟨⟨by decide, by decide, by decide⟩, h.1, ?_, ?_⟩
  · rw [h.2.1]; decide
  · rw [h.2.2.1]; decide

-- ### C9 — heartbeat-based dead-connection removal

theorem mem_markPong_of_ne {cs : List Client} {r : Client} {p now : String}
    (hm : r ∈ cs) (hne : r.id ≠ p) : r ∈ markPong cs p now := by
  rw [markPong]
  have := List.mem_map_of_mem
    (fun c => if c.id = p then { c with isAlive := true, lastMessageAt := now } else c) hm
  simpa [hne] using this

theorem mem_markPongs_of_not_mem {pongs : List String} :
    ∀ {cs : List Client} {r : Client} {now : String},
      r ∈ cs → r.id ∉ pongs → r ∈ markPongs cs pongs now := by
  induction pongs with
  | nil => intro cs r now hm _; exact hm
  | cons p rest ih =>
      intro cs r now hm hnp
      rw [markPongs] at *
      simp only [List.foldl_cons]
      exact ih (mem_markPong_of_ne hm (fun h => hnp (by simp [h])))
        (fun h => hnp (by simp [h]))

theorem alive_markPong {cs : List Client} {x : Client} {p now : String}
    (hm : x ∈ markPong cs p now) (ha : x.isAlive = true) :
    (∃ y ∈ cs, y.isAlive = true ∧ x.id = y.id) ∨ x.id = p := by
  rw [markPong] at hm
  rcases List.mem_map.mp hm with ⟨y, hy, hxy⟩
  by_cases hid : y.id = p
  · right
    rw [← hxy]
    simp [hid]
  · left
    rw [← hxy]
    simp only [hid, if_false]
    refine ⟨y, hy, ?_, rfl⟩
    rw [← hxy] at ha
    simpa [hid] using ha

theorem alive_markPongs {pongs : List String} :
    ∀ {cs : List Client} {x : Client} {now : String},
      x ∈ markPongs cs pongs now → x.isAlive = true →
      (∃ y ∈ cs, y.isAlive = true ∧ x.id = y.id) ∨ x.id ∈ pongs := by
  induction pongs with
  | nil => intro cs x now hm ha; exact Or.inl ⟨x, hm, ha, rfl⟩
  | cons p rest ih =>
      intro cs x now hm ha
      rw [markPongs] at hm
      simp only [List.foldl_cons] at hm
      rcases ih hm ha with ⟨y, hy, hya, hxy⟩ | hp
      · rcases alive_markPong hy hya with ⟨z, hz, hza, hyz⟩ | hyp
        · exact Or.inl ⟨z, hz, hza, hxy.trans hyz⟩
        · exact Or.inr (by simp [hxy, hyp])
      · exact Or.inr (by simp [hp])

theorem heartbeatTick_clients_not_alive {cs : List Client} {x : Client}
    (hx : x ∈ (heartbeatTick cs).clients) : x.isAlive = false := by
  rw [heartbeatTick] at hx
  rcases List.mem_map.mp hx with ⟨y, _, hxy⟩
  rw [← hxy]

/-- C9: at a heartbeat interval every still-tracked client is marked
not-alive and pinged (clients already marked not-alive are terminated and
removed instead); a client that was alive at one interval and does not pong
before the next — whatever pongs other clients send — is terminated at that
next interval, leaves the client set, and no subsequent broadcast attempts
delivery to it. -/
theorem C9_heartbeat_removal :
    ∀ (cs : List Client) (c : Client) (pongs : List String) (now : String),
      c ∈ cs → c.isAlive = true → c.id ∉ pongs →
      ((∀ x ∈ (heartbeatTick cs).clients, x.isAlive = false)
      ∧ c.id ∈ (heartbeatTick cs).pinged
      ∧ { c with isAlive := false } ∈ (heartbeatTick cs).clients
      ∧ (∀ x ∈ cs, x.isAlive = false → x.id ∈ (heartbeatTick cs).terminated)
      ∧ c.id ∈ (heartbeatTick (markPongs (heartbeatTick cs).clients pongs now)).terminated
      ∧ c.id ∉ ((heartbeatTick (markPongs (heartbeatTick cs).clients pongs now)).clients.map
          Client.id)
      ∧ ∀ (ex : Option String),
          c.id ∉ broadcastRecipients
            (heartbeatTick (markPongs (heartbeatTick cs).clients pongs now)).clients ex) := by
  intro cs c pongs now hc halive hnp
  have hmem1 : { c with isAlive := false } ∈ (heartbeatTick cs).clients := by
    rw [heartbeatTick]
    exact List.mem_map_of_mem _ (List.mem_filter.mpr ⟨hc, by simp [halive]⟩)
  have hmem2 : { c with isAlive := false } ∈
      markPongs (heartbeatTick cs).clients pongs now :=
    mem_markPongs_of_not_mem hmem1 hnp
  have hsurv : ∀ x ∈ (heartbeatTick (markPongs (heartbeatTick cs).clients pongs now)).clients,
      x.id ≠ c.id := by
    intro x hx hxc
    rw [heartbeatTick] at hx
    rcases List.mem_map.mp hx with ⟨y, hy, hxy⟩
    have hyalive : y.isAlive = true := (List.mem_filter.mp hy).2
    rcases alive_markPongs (List.mem_filter.mp hy).1 hyalive with ⟨z, hz, hza, hyz⟩ | hyp
    · exact absurd hza (by simp [heartbeatTick_clients_not_alive hz])
    · apply hnp
      have hxyid : x.id = y.id := by rw [← hxy]
      rw [hxc] at hxyid
      rw [hxyid]
      exact hyp
  refine ⟨?_, ?_, hmem1, ?_, ?_, ?_, ?_⟩
  · intro x hx
    exact heartbeatTick_clients_not_alive hx
  · rw [heartbeatTick]
    exact List.mem_map.mpr ⟨c, List.mem_filter.mpr ⟨hc, by simp [halive]⟩, rfl⟩
  · intro x hx hdead
    rw [heartbeatTick]
    exact List.mem_map.mpr ⟨x, List.mem_filter.mpr ⟨hx, by simp [hdead]⟩, rfl⟩
  · rw [heartbeatTick]
    exact List.mem_map.mpr ⟨{ c with isAlive := false },
      List.mem_filter.mpr ⟨hmem2, by simp⟩, rfl⟩
  · intro hmem
    rcases List.mem_map.mp hmem with ⟨x, hx, hxid⟩
    exact hsurv x hx hxid
  · intro ex hmem
    rw [broadcastRecipients] at hmem
    rcases List.mem_map.mp hmem with ⟨x, hx, hxid⟩
    exact hsurv x (List.mem_filter.mp hx).1 hxid

/-- Witness for C9: of two alive clients, `c1` never pongs and `c2` pongs
once; after the second heartbeat interval `c1` has been terminated, left
the set, and receives no broadcast. -/
theorem C9_witness :
    (cl1 ∈ [cl1, cl2] ∧ cl1.isAlive = true ∧ cl1.id ∉ ["c2"])
    ∧ cl1.id ∈ (heartbeatTick (markPongs (heartbeatTick [cl1, cl2]).clients ["c2"] "T1")).terminated
    ∧ cl1.id ∉ ((heartbeatTick (markPongs (heartbeatTick [cl1, cl2]).clients ["c2"] "T1")).clients.map
        Client.id)
    ∧ cl1.id ∉ broadcastRecipients
        (heartbeatTick (markPongs (heartbeatTick [cl1, cl2]).clients ["c2"] "T1")).clients none := by
  have h := C9_heartbeat_removal [cl1, cl2] cl1 ["c2"] "T1" (by decide) (by decide) (by decide)
  exact ⟨⟨by decide, by decide, by decide⟩, h.2.2.2.2.1, h.2.2.2.2.2.1, h.2.2.2.2.2.2 none⟩

-- ### C10 — the stored `format` field of an upper-case extension

/-- C10: the scan's extension check lower-cases (`SONG.MP3` is admitted),
but `_extractMusicInfo` stores `path.extname(filePath).substring(1)`
without lower-casing — the entry of an admitted upper-case-extension file
records `format = "MP3"`, which is not lower-case and not a member of the
configured supported-format set (and can never match the `format` filter,
which compares against a lower-cased value). -/
theorem C10_uppercase_format_not_lowercased :
    isSupportedFormat cfgDefault "SONG.MP3" = true
    ∧ (scanLibrary cfgDefault "music" [FsEntry.file fileU]).map (fun m => m.format) = ["MP3"]
    ∧ cfgDefault.supportedFormats.contains "MP3" = false
    ∧ lowerStr "MP3" ≠ "MP3"
    ∧ applyFilters cfgDefault (scanLibrary cfgDefault "music" [FsEntry.file fileU])
        { format := some "MP3" } = [] := by
  rw [scanLibrary, scanDirectory, scanDirectory]
  refine ⟨by decide, by decide, by decide, by decide, by decide⟩

end MCPMusic
